import Mathlib

/-
Verification of the pstatool statistics-aggregation-and-rendering pipeline
(src/model.rs and src/svg.rs).

Modelling conventions:
- The Rust `HashMap<String, LanguageStats>` of `ClocData` is embedded as an
  association list `List (String × LanguageStats)`; the list order is the
  (otherwise unspecified) iteration order of the hash map, which the code
  observes via `.values()`, `.iter()` and the stable sort.
- `f64` arithmetic (percentages and segment widths) is idealized as exact
  rational arithmetic over `ℚ`.
- Rust's `{:.2}`-style fixed two-decimal formatting is modelled by `fmt2`,
  rounding the exact rational to the nearest hundredth (half up).
- `sort_by(|a, b| b.1.cmp(&a.1))` is a stable sort by line count descending;
  it is embedded as `List.insertionSort` with the reflexive total order
  `ledesc` (Mathlib's `orderedInsert` inserts a new element after all
  already-placed elements it ties with, which is exactly stability), since
  any two stable sorts under the same total preorder agree.
- The static assets `langs.yml` and `template.svg` are not part of the
  sources; the color registry and the template text are therefore passed as
  explicit parameters, as are the fragments derived from them.
-/

/-- `LanguageStats` from src/model.rs: per-language counts parsed from cloc. -/
structure LanguageStats where
  n_files : Nat
  blank : Nat
  comment : Nat
  code : Nat
deriving Repr, DecidableEq

/-- `LanguageStats::total_lines`: blank + comment + code. -/
def LanguageStats.total_lines (s : LanguageStats) : Nat := s.blank + s.comment + s.code

/-- `ClocData` from src/model.rs. The opaque header is not consulted by the
pipeline and is omitted; the language map is kept as an association list in
iteration order. -/
structure ClocData where
  languages : List (String × LanguageStats)
deriving Repr, DecidableEq

/-- `SvgTemplateData` from src/svg.rs. -/
structure SvgTemplateData where
  total_lines : Nat
  total_files : Nat
  bar : String
  left_block : String
  right_block : String
deriving Repr, DecidableEq

/-- The fixed fallback color token (`let default_color = "#cccccc"` in
`cloc_to_svg_template_data`). -/
def default_color : String := "#cccccc"

/-- `LANGUAGE_COLORS.get(lang).unwrap_or(&default_color_owned)`: registry
lookup with fixed default.  The registry is the association list backing the
process-wide color table. -/
def lookupColor (registry : List (String × String)) (lang : String) : String :=
  match registry.lookup lang with
  | some c => c
  | none => default_color

/-- `load_language_colors` from src/svg.rs: the parsed YAML is a map from
language name to a record with an optional color; entries without a color are
dropped (`filter_map`). -/
def load_language_colors (parsed : List (String × Option String)) :
    List (String × String) :=
  parsed.filterMap (fun p => p.2.map (fun color => (p.1, color)))

/-- `let total_loc: u64 = cloc.languages.values().map(total_lines).sum()`. -/
def total_loc (cloc : ClocData) : Nat :=
  (cloc.languages.map (fun p => p.2.total_lines)).sum

/-- `let total_files: u64 = cloc.languages.values().map(|s| s.n_files).sum()`. -/
def total_files (cloc : ClocData) : Nat :=
  (cloc.languages.map (fun p => p.2.n_files)).sum

/-- One element of the `lang_data` vector:
`(lang.clone(), stats.total_lines(), pct, width)`. -/
structure LangDatum where
  name : String
  lines : Nat
  pct : ℚ
  width : ℚ
deriving Repr, DecidableEq

/-- The `lang_data` map body: `pct = total_lines / total_loc * 100.0`,
`width = pct / 100.0 * 250.0`. -/
def langDatum (total : Nat) (p : String × LanguageStats) : LangDatum :=
  let pct : ℚ := ((p.2.total_lines : ℚ) / (total : ℚ)) * 100
  { name := p.1, lines := p.2.total_lines, pct := pct, width := (pct / 100) * 250 }

/-- The collected `lang_data` vector, before sorting. -/
def langData (cloc : ClocData) : List LangDatum :=
  cloc.languages.map (langDatum (total_loc cloc))

/-- The comparison of `lang_data.sort_by(|a, b| b.1.cmp(&a.1))`: descending by
line count. -/
def ledesc (a b : LangDatum) : Prop := b.lines ≤ a.lines

instance : DecidableRel ledesc := fun a b => Nat.decLe b.lines a.lines

instance : IsTotal LangDatum ledesc := ⟨fun a b => Nat.le_total b.lines a.lines⟩

instance : IsTrans LangDatum ledesc := ⟨fun _ _ _ h1 h2 => Nat.le_trans h2 h1⟩

/-- `lang_data.sort_by(...); lang_data.truncate(6)`: stable sort descending by
line count, then keep the first six entries. -/
def rankedData (cloc : ClocData) : List LangDatum :=
  (List.insertionSort ledesc (langData cloc)).take 6

/-- Two-decimal rendering of an integer number of hundredths. -/
def fmt2Int (n : ℤ) : String :=
  let whole := n / 100
  let frac := n % 100
  toString whole ++ "." ++ (if frac < 10 then "0" else "") ++ toString frac

/-- Fixed two-decimal formatting of an exact rational (model of Rust fixed
two-decimal float formatting): round to the nearest hundredth. -/
def fmt2 (q : ℚ) : String := fmt2Int (round (q * 100))

/-- One placed bar segment of the rects loop: cumulative x position, width,
and resolved fill color. -/
structure BarSeg where
  x : ℚ
  width : ℚ
  color : String
deriving Repr, DecidableEq

/-- The rects loop of `cloc_to_svg_template_data`: `cumulative_x` starts at 0
and advances by each segment's width (`cumulative_x += width`). -/
def barSegs (registry : List (String × String)) :
    List LangDatum → ℚ → List BarSeg
  | [], _ => []
  | d :: rest, x =>
    ⟨x, d.width, lookupColor registry d.name⟩ :: barSegs registry rest (x + d.width)

/-- The `format!` body pushed for one rect. -/
def rectMarkup (s : BarSeg) : String :=
  "<rect mask=\"url(#rect-mask)\" x=\"" ++ fmt2 s.x ++ "\" y=\"0\" width=\""
    ++ fmt2 s.width ++ "\" height=\"8\" fill=\"" ++ s.color ++ "\"/>"

/-- The accumulated `rects` string. -/
def barString (registry : List (String × String)) (ds : List LangDatum) : String :=
  String.join ((barSegs registry ds 0).map rectMarkup)

/-- The `format!` body of one label row: stagger delay from the global rank
index (`450 + (i % 3) * 150`), resolved swatch color, name and two-decimal
percentage. -/
def labelMarkup (registry : List (String × String)) (i : Nat) (d : LangDatum) :
    String :=
  "<g class=\"stagger\" style=\"animation-delay: "
    ++ toString (450 + (i % 3) * 150) ++ "ms\">\n    <circle cx=\"5\" cy=\"6\" r=\"5\" fill=\""
    ++ lookupColor registry d.name
    ++ "\"/>\n    <text x=\"15\" y=\"10\" class=\"lang-name\">" ++ d.name ++ " "
    ++ fmt2 d.pct ++ "%</text>\n</g>"

/-- The `left_labels` vector: labels at even global rank index
(`if i % 2 == 0`), in rank order. -/
def leftLabels (registry : List (String × String)) (ds : List LangDatum) :
    List String :=
  (ds.enum.filter (fun p => p.1 % 2 == 0)).map
    (fun p => labelMarkup registry p.1 p.2)

/-- The `right_labels` vector: labels at odd global rank index (the `else`
branch), in rank order. -/
def rightLabels (registry : List (String × String)) (ds : List LangDatum) :
    List String :=
  (ds.enum.filter (fun p => !(p.1 % 2 == 0))).map
    (fun p => labelMarkup registry p.1 p.2)

/-- The per-row wrapper of the column assembly: `translate(0, i * 25)` where
`i` is the 0-based position within the column. -/
def rowMarkup (j : Nat) (label : String) : String :=
  "<g transform=\"translate(0, " ++ toString (j * 25) ++ ")\">" ++ label ++ "</g>"

/-- `labels.into_iter().enumerate().map(...)`: each label wrapped at its
per-column offset. -/
def columnRows (labels : List String) : List String :=
  labels.enum.map (fun p => rowMarkup p.1 p.2)

/-- `...collect::<Vec<_>>().join("\n")`. -/
def columnBlock (labels : List String) : String :=
  String.intercalate "\n" (columnRows labels)

/-- The fixed placeholder bar markup of the zero-total early return. -/
def svg_placeholder_bar : String := "<svg><!-- No code found --></svg>"

/-- `cloc_to_svg_template_data` from src/svg.rs. -/
def cloc_to_svg_template_data (registry : List (String × String))
    (cloc : ClocData) : SvgTemplateData :=
  if total_loc cloc = 0 then
    { total_lines := 0, total_files := 0, bar := svg_placeholder_bar,
      left_block := "", right_block := "" }
  else
    { total_lines := total_loc cloc
      total_files := total_files cloc
      bar := barString registry (rankedData cloc)
      left_block := columnBlock (leftLabels registry (rankedData cloc))
      right_block := columnBlock (rightLabels registry (rankedData cloc)) }

/-- The subheader `format!` of `generate_svg`. -/
def subheaderText (data : SvgTemplateData) : String :=
  toString data.total_lines ++ " lines of code in " ++ toString data.total_files
    ++ " files"

/-- `generate_svg` from src/svg.rs; the template text is a parameter standing
for the bundled asset.  The Rust function returns `Result` but has no failing
path, hence always `Except.ok`. -/
def generate_svg (template : String) (registry : List (String × String))
    (project_name : String) (cloc : ClocData) : Except String String :=
  let data := cloc_to_svg_template_data registry cloc
  let subheader := subheaderText data
  let header := "Stats for " ++ project_name
  Except.ok (((((template.replace "#header#" header).replace "#subheader#"
    subheader).replace "#bar_rects#" data.bar).replace "#left_block#"
    data.left_block).replace "#right_block#" data.right_block)

/-! ### Arithmetic helper lemmas -/

lemma sum_map_div_mul (l : List Nat) (t c : ℚ) :
    (l.map (fun n : Nat => ((n : ℚ) / t) * c)).sum = ((l.sum : ℚ) / t) * c := by
  induction l with
  | nil => simp
  | cons a tl ih =>
    rw [List.map_cons, List.sum_cons, ih, List.sum_cons, Nat.cast_add, add_div,
      add_mul]

lemma langData_pct_sum (cloc : ClocData) :
    ((langData cloc).map LangDatum.pct).sum
      = ((total_loc cloc : ℚ) / (total_loc cloc : ℚ)) * 100 := by
  unfold langData
  rw [List.map_map]
  rw [show (LangDatum.pct ∘ langDatum (total_loc cloc))
        = ((fun n : Nat => ((n : ℚ) / (total_loc cloc : ℚ)) * 100)
            ∘ (fun p : String × LanguageStats => p.2.total_lines)) from rfl]
  rw [← List.map_map, sum_map_div_mul]
  rfl

lemma mem_langData_of_mem_ranked {cloc : ClocData} {d : LangDatum}
    (h : d ∈ rankedData cloc) : d ∈ langData cloc := by
  unfold rankedData at h
  have h1 : d ∈ List.insertionSort ledesc (langData cloc) :=
    List.take_subset 6 _ h
  exact ((List.perm_insertionSort ledesc (langData cloc)).mem_iff).mp h1

lemma width_eq_of_mem_langData {cloc : ClocData} {d : LangDatum}
    (h : d ∈ langData cloc) : d.width = d.pct / 100 * 250 := by
  unfold langData at h
  simp only [List.mem_map] at h
  obtain ⟨p, _, rfl⟩ := h
  rfl

/-! ### Registry lookup lemmas -/

lemma lookup_eq_some_of_mem {l : List (String × String)} {k v : String}
    (hnd : (l.map Prod.fst).Nodup) (hm : (k, v) ∈ l) : l.lookup k = some v := by
  induction l with
  | nil => cases hm
  | cons a tl ih =>
    rcases List.mem_cons.mp hm with he | hm'
    · subst he
      simp [List.lookup]
    · have hk : ¬ (k = a.1) := by
        intro he
        have : a.1 ∈ tl.map Prod.fst := by
          rw [← he]
          exact List.mem_map.mpr ⟨(k, v), hm', rfl⟩
        exact ((List.nodup_cons).mp (by simpa using hnd)).1 this
      have : (k == a.1) = false := by simpa using hk
      simp [List.lookup, this]
      exact ih (by simpa using ((List.nodup_cons).mp (by simpa using hnd)).2) hm'

lemma lookup_eq_none_of_not_mem {l : List (String × String)} {k : String}
    (h : k ∉ l.map Prod.fst) : l.lookup k = none := by
  induction l with
  | nil => rfl
  | cons a tl ih =>
    have h1 : ¬ (k = a.1) := fun he => h (by simp [he])
    have h2 : k ∉ tl.map Prod.fst := fun hm => h (by simp; right; simpa using hm)
    have hb : (k == a.1) = false := by simpa using h1
    simp [List.lookup, hb, ih h2]

/-! ### Example inputs used by witnesses and counterexamples -/

/-- The spec's concrete scenario: Go with 100 lines, TS with 10 lines. -/
def exGoTS : ClocData := ⟨[("Go", ⟨2, 5, 3, 92⟩), ("TS", ⟨1, 1, 1, 8⟩)]⟩

/-- One language with zero lines but three files. -/
def exC1 : ClocData := ⟨[("Rust", ⟨3, 0, 0, 0⟩)]⟩

/-- All languages at zero lines, positive file counts. -/
def exC3 : ClocData := ⟨[("Swift", ⟨5, 0, 0, 0⟩), ("Rust", ⟨2, 0, 0, 0⟩)]⟩

/-- A small color registry. -/
def regEx : List (String × String) := [("Rust", "#dea584"), ("Swift", "#F05138")]

/-! ### C1 -/

/-- C1, counterexample: on an input whose only language has zero lines but
three files, the produced `total_files` is 0, not the sum of `n_files` over
the languages (which is 3): the zero-total early return discards the computed
file total. -/
theorem total_files_counterexample :
    (cloc_to_svg_template_data [] exC1).total_files
      ≠ (exC1.languages.map (fun p => p.2.n_files)).sum := by decide

/-- C1, amended: `total_files` of the produced `SvgTemplateData` equals the
sum of `n_files` over all languages (full, untruncated set) whenever the total
line count is positive; when the total line count is zero the early return
yields 0 instead, regardless of the file counts. -/
theorem total_files_eq (registry : List (String × String)) (cloc : ClocData) :
    (cloc_to_svg_template_data registry cloc).total_files
      = if total_loc cloc = 0 then 0 else total_files cloc := by
  unfold cloc_to_svg_template_data
  by_cases h : total_loc cloc = 0 <;> simp [h]

/-! ### C3 -/

/-- C3: when every language has zero total lines (file counts arbitrary), the
pipeline returns the fixed sentinel: placeholder bar markup, empty column
fragments, zero totals; the rendered subheader reads zero lines and zero
files, and `generate_svg` succeeds (no error, no division by zero). -/
theorem zero_total_sentinel (registry : List (String × String))
    (template project_name : String) (cloc : ClocData)
    (h : ∀ p ∈ cloc.languages, p.2.total_lines = 0) :
    cloc_to_svg_template_data registry cloc
        = { total_lines := 0, total_files := 0, bar := svg_placeholder_bar,
            left_block := "", right_block := "" }
    ∧ subheaderText (cloc_to_svg_template_data registry cloc)
        = "0 lines of code in 0 files"
    ∧ ∃ doc, generate_svg template registry project_name cloc = Except.ok doc := by
  have h0 : total_loc cloc = 0 := by
    unfold total_loc
    apply List.sum_eq_zero
    intro x hx
    simp only [List.mem_map] at hx
    obtain ⟨p, hp, rfl⟩ := hx
    exact h p hp
  have hd : cloc_to_svg_template_data registry cloc
      = { total_lines := 0, total_files := 0, bar := svg_placeholder_bar,
          left_block := "", right_block := "" } := by
    unfold cloc_to_svg_template_data
    simp [h0]
  refine ⟨hd, ?_, ⟨_, rfl⟩⟩
  rw [hd]
  decide

/-- C3 witness: the sentinel at a concrete all-zero-lines input with positive
file counts. -/
theorem zero_total_sentinel_witness :
    (∀ p ∈ exC3.languages, p.2.total_lines = 0)
    ∧ cloc_to_svg_template_data [] exC3
        = { total_lines := 0, total_files := 0, bar := svg_placeholder_bar,
            left_block := "", right_block := "" }
    ∧ subheaderText (cloc_to_svg_template_data [] exC3)
        = "0 lines of code in 0 files"
    ∧ ∃ doc, generate_svg "x #subheader# y" [] "proj" exC3 = Except.ok doc :=
  ⟨by decide,
   (zero_total_sentinel [] "x #subheader# y" "proj" exC3 (by decide)).1,
   (zero_total_sentinel [] "x #subheader# y" "proj" exC3 (by decide)).2.1,
   (zero_total_sentinel [] "x #subheader# y" "proj" exC3 (by decide)).2.2⟩

/-! ### C4 -/

/-- C4: for any input with positive total line count, the percentages of all
languages (computed before truncation) sum to 100 within the claimed ±0.01
tolerance (in the exact rational model the sum is exactly 100). -/
theorem pct_sum_within_tolerance (cloc : ClocData) (h : 0 < total_loc cloc) :
    |((langData cloc).map LangDatum.pct).sum - 100| ≤ 1 / 100 := by
  have ht : ((total_loc cloc : ℚ)) ≠ 0 := by
    exact_mod_cast Nat.pos_iff_ne_zero.mp h
  rw [langData_pct_sum cloc, div_self ht, one_mul]
  simp

/-- C4 witness: the spec's Go/TS scenario (total 110 lines). -/
theorem pct_sum_within_tolerance_witness :
    0 < total_loc exGoTS
    ∧ |((langData exGoTS).map LangDatum.pct).sum - 100| ≤ 1 / 100 :=
  ⟨by decide, pct_sum_within_tolerance exGoTS (by decide)⟩

/-! ### C6 -/

/-- C6: the ranked entry list never exceeds 6 elements, whatever the number of
input languages. -/
theorem ranked_at_most_six (cloc : ClocData) : (rankedData cloc).length ≤ 6 := by
  unfold rankedData
  rw [List.length_take]
  exact min_le_left _ _

/-! ### C7 -/

/-- C7: the ranked list is sorted descending by total line count: each entry's
line count is at least the next one's. -/
theorem ranked_sorted_desc (cloc : ClocData) (i : Nat)
    (hi : i + 1 < (rankedData cloc).length) :
    ((rankedData cloc).get ⟨i + 1, hi⟩).lines
      ≤ ((rankedData cloc).get ⟨i, Nat.lt_of_succ_lt hi⟩).lines := by
  have hs : List.Pairwise ledesc (List.insertionSort ledesc (langData cloc)) :=
    List.sorted_insertionSort ledesc (langData cloc)
  have hs2 : List.Pairwise ledesc (rankedData cloc) := by
    unfold rankedData
    exact List.Pairwise.sublist (List.take_sublist 6 _) hs
  exact List.pairwise_iff_getElem.mp hs2 i (i + 1)
    (Nat.lt_of_succ_lt hi) hi (Nat.lt_succ_self i)

/-- C7 witness: at the Go/TS input the second-ranked entry has at most as many
lines as the first. -/
theorem ranked_sorted_desc_witness :
    0 + 1 < (rankedData exGoTS).length
    ∧ ((rankedData exGoTS).get ⟨0 + 1, by decide⟩).lines
        ≤ ((rankedData exGoTS).get ⟨0, by decide⟩).lines :=
  ⟨by decide, ranked_sorted_desc exGoTS 0 (by decide)⟩

/-! ### C9 -/

/-- C9: color resolution is total: a language present in a duplicate-free
registry resolves to exactly its registered token; an absent language resolves
to the fixed default token. -/
theorem color_resolution (registry : List (String × String)) (lang c : String)
    (hnd : (registry.map Prod.fst).Nodup) :
    ((lang, c) ∈ registry → lookupColor registry lang = c)
    ∧ (lang ∉ registry.map Prod.fst → lookupColor registry lang = default_color) := by
  constructor
  · intro hm
    unfold lookupColor
    rw [lookup_eq_some_of_mem hnd hm]
  · intro hm
    unfold lookupColor
    rw [lookup_eq_none_of_not_mem hm]

/-- C9 witness: a registered language round-trips; an unknown one falls back
to the default token. -/
theorem color_resolution_witness :
    (regEx.map Prod.fst).Nodup
    ∧ lookupColor regEx "Rust" = "#dea584"
    ∧ lookupColor regEx "Zig" = default_color :=
  ⟨by decide,
   (color_resolution regEx "Rust" "#dea584" (by decide)).1 (by decide),
   (color_resolution regEx "Zig" "" (by decide)).2 (by decide)⟩

/-! ### Bar geometry lemmas -/

lemma barSegs_length (registry : List (String × String)) (ds : List LangDatum)
    (x : ℚ) : (barSegs registry ds x).length = ds.length := by
  induction ds generalizing x with
  | nil => rfl
  | cons d rest ih => simp [barSegs, ih]

lemma barSegs_map_width (registry : List (String × String))
    (ds : List LangDatum) (x : ℚ) :
    (barSegs registry ds x).map BarSeg.width = ds.map LangDatum.width := by
  induction ds generalizing x with
  | nil => rfl
  | cons d rest ih => simp [barSegs, ih]

lemma barSegs_head_x (registry : List (String × String)) (ds : List LangDatum)
    (x : ℚ) (h0 : 0 < (barSegs registry ds x).length) :
    ((barSegs registry ds x).get ⟨0, h0⟩).x = x := by
  cases ds with
  | nil => simp [barSegs] at h0
  | cons d rest => rfl

lemma barSegs_contiguous (registry : List (String × String))
    (ds : List LangDatum) (x : ℚ) (i : Nat)
    (hi : i + 1 < (barSegs registry ds x).length) :
    ((barSegs registry ds x).get ⟨i + 1, hi⟩).x
      = ((barSegs registry ds x).get ⟨i, Nat.lt_of_succ_lt hi⟩).x
        + ((barSegs registry ds x).get ⟨i, Nat.lt_of_succ_lt hi⟩).width := by
  induction ds generalizing x i with
  | nil => simp [barSegs] at hi
  | cons d rest ih =>
    cases i with
    | zero =>
      have h0 : 0 < (barSegs registry rest (x + d.width)).length := by
        have := hi
        simp only [barSegs, List.length_cons] at this
        omega
      simpa [barSegs, List.get_eq_getElem] using barSegs_head_x registry rest (x + d.width) h0
    | succ i' =>
      have hi' : i' + 1 < (barSegs registry rest (x + d.width)).length := by
        have := hi
        simp only [barSegs, List.length_cons] at this
        omega
      simpa [barSegs, List.get_eq_getElem] using ih (x + d.width) i' hi'

lemma sum_map_pct_scale (l : List LangDatum) :
    (l.map (fun d => d.pct / 100 * 250)).sum
      = (l.map LangDatum.pct).sum / 100 * 250 := by
  induction l with
  | nil => simp
  | cons d rest ih =>
    rw [List.map_cons, List.sum_cons, ih, List.map_cons, List.sum_cons, add_div,
      add_mul]

/-! ### C5 -/

/-- C5: for a non-degenerate input, the bar segments are contiguous (the first
starts at x = 0 and each subsequent one starts where the previous ended), and
the widths sum to 250 times the sum of the top-6 percentages divided by 100. -/
theorem bar_geometry (registry : List (String × String)) (cloc : ClocData)
    (h : 0 < total_loc cloc) :
    (∀ h0 : 0 < (barSegs registry (rankedData cloc) 0).length,
      ((barSegs registry (rankedData cloc) 0).get ⟨0, h0⟩).x = 0)
    ∧ (∀ (i : Nat) (hi : i + 1 < (barSegs registry (rankedData cloc) 0).length),
      ((barSegs registry (rankedData cloc) 0).get ⟨i + 1, hi⟩).x
        = ((barSegs registry (rankedData cloc) 0).get ⟨i, Nat.lt_of_succ_lt hi⟩).x
          + ((barSegs registry (rankedData cloc) 0).get ⟨i, Nat.lt_of_succ_lt hi⟩).width)
    ∧ ((barSegs registry (rankedData cloc) 0).map BarSeg.width).sum
        = 250 * ((rankedData cloc).map LangDatum.pct).sum / 100 := by
  refine ⟨fun h0 => barSegs_head_x registry (rankedData cloc) 0 h0,
    fun i hi => barSegs_contiguous registry (rankedData cloc) 0 i hi, ?_⟩
  rw [barSegs_map_width]
  have hw : (rankedData cloc).map LangDatum.width
      = (rankedData cloc).map (fun d => d.pct / 100 * 250) := by
    apply List.map_congr_left
    intro d hd
    exact width_eq_of_mem_langData (mem_langData_of_mem_ranked hd)
  rw [hw, sum_map_pct_scale]
  ring

/-- C5 witness: the geometry properties at the Go/TS input. -/
theorem bar_geometry_witness :
    0 < total_loc exGoTS
    ∧ ((∀ h0 : 0 < (barSegs regEx (rankedData exGoTS) 0).length,
        ((barSegs regEx (rankedData exGoTS) 0).get ⟨0, h0⟩).x = 0)
      ∧ (∀ (i : Nat) (hi : i + 1 < (barSegs regEx (rankedData exGoTS) 0).length),
        ((barSegs regEx (rankedData exGoTS) 0).get ⟨i + 1, hi⟩).x
          = ((barSegs regEx (rankedData exGoTS) 0).get ⟨i, Nat.lt_of_succ_lt hi⟩).x
            + ((barSegs regEx (rankedData exGoTS) 0).get ⟨i, Nat.lt_of_succ_lt hi⟩).width)
      ∧ ((barSegs regEx (rankedData exGoTS) 0).map BarSeg.width).sum
          = 250 * ((rankedData exGoTS).map LangDatum.pct).sum / 100) :=
  ⟨by decide, bar_geometry regEx exGoTS (by decide)⟩

/-! ### C10 helper lemmas -/

lemma length_filter_add_length_filter_not {α : Type} (l : List α) (p : α → Bool) :
    (l.filter p).length + (l.filter (fun a => !(p a))).length = l.length := by
  induction l with
  | nil => rfl
  | cons a t ih =>
    by_cases hp : p a <;> simp only [List.filter_cons, hp] <;> simp <;> omega

lemma insertionSort_langData_length (cloc : ClocData) :
    (List.insertionSort ledesc (langData cloc)).length = cloc.languages.length := by
  rw [(List.perm_insertionSort ledesc (langData cloc)).length_eq]
  simp [langData]

lemma rankedData_eq_of_le_six {cloc : ClocData}
    (h6 : cloc.languages.length ≤ 6) :
    rankedData cloc = List.insertionSort ledesc (langData cloc) := by
  unfold rankedData
  exact List.take_of_length_le (by rw [insertionSort_langData_length]; exact h6)

lemma fmt2_zero : fmt2 0 = "0.00" := by
  have h : round ((0 : ℚ) * 100) = 0 := by norm_num
  unfold fmt2
  rw [h]
  decide

/-! ### C10 -/

/-- C10: for a positive-total input with at most six languages, every
language produces exactly one bar segment and one label row (the segment and
label counts equal the language count), and a zero-line language is not
filtered out: it appears among the ranked entries with percentage 0 and
width 0, both formatted as "0.00". -/
theorem zero_line_language_rendered (registry : List (String × String))
    (cloc : ClocData) (h : 0 < total_loc cloc)
    (h6 : cloc.languages.length ≤ 6) :
    (barSegs registry (rankedData cloc) 0).length = cloc.languages.length
    ∧ (leftLabels registry (rankedData cloc)).length
        + (rightLabels registry (rankedData cloc)).length = cloc.languages.length
    ∧ ∀ p ∈ cloc.languages, p.2.total_lines = 0 →
        ∃ d ∈ rankedData cloc, d.name = p.1 ∧ d.pct = 0 ∧ d.width = 0
          ∧ fmt2 d.pct = "0.00" ∧ fmt2 d.width = "0.00" := by
  have hr : (rankedData cloc).length = cloc.languages.length := by
    rw [rankedData_eq_of_le_six h6, insertionSort_langData_length]
  refine ⟨by rw [barSegs_length, hr], ?_, ?_⟩
  · unfold leftLabels rightLabels
    rw [List.length_map, List.length_map,
      length_filter_add_length_filter_not ((rankedData cloc).enum) (fun p => p.1 % 2 == 0),
      List.enum_length, hr]
  · intro p hp hz
    refine ⟨langDatum (total_loc cloc) p, ?_, rfl, ?_⟩
    · rw [rankedData_eq_of_le_six h6]
      apply ((List.perm_insertionSort ledesc (langData cloc)).mem_iff).mpr
      exact List.mem_map.mpr ⟨p, hp, rfl⟩
    · have hpct : (langDatum (total_loc cloc) p).pct = 0 := by
        simp [langDatum, hz]
      have hwidth : (langDatum (total_loc cloc) p).width = 0 := by
        simp [langDatum, hz]
      exact ⟨hpct, hwidth, by rw [hpct]; exact fmt2_zero,
        by rw [hwidth]; exact fmt2_zero⟩

/-- An input with a zero-line language ("Z", two files) next to a nonzero
one. -/
def exC10 : ClocData := ⟨[("A", ⟨1, 1, 0, 0⟩), ("Z", ⟨2, 0, 0, 0⟩)]⟩

/-- C10 witness: at a concrete two-language input with one zero-line
language, both hypotheses hold and the claim's conclusions follow. -/
theorem zero_line_language_rendered_witness :
    (0 < total_loc exC10 ∧ exC10.languages.length ≤ 6)
    ∧ ((barSegs regEx (rankedData exC10) 0).length = exC10.languages.length
      ∧ (leftLabels regEx (rankedData exC10)).length
          + (rightLabels regEx (rankedData exC10)).length = exC10.languages.length
      ∧ ∀ p ∈ exC10.languages, p.2.total_lines = 0 →
          ∃ d ∈ rankedData exC10, d.name = p.1 ∧ d.pct = 0 ∧ d.width = 0
            ∧ fmt2 d.pct = "0.00" ∧ fmt2 d.width = "0.00") :=
  ⟨⟨by decide, by decide⟩,
   zero_line_language_rendered regEx exC10 (by decide) (by decide)⟩

/-! ### Label layout lemmas -/

lemma enumFrom_filter_parity_getElem {α : Type} (l : List α) : ∀ (k j : Nat),
    (((List.enumFrom k l).filter (fun p => p.1 % 2 == 0))[j]?
        = if k % 2 = 0 then (l[2 * j]?).map (fun a => (k + 2 * j, a))
          else (l[2 * j + 1]?).map (fun a => (k + 1 + 2 * j, a)))
    ∧ (((List.enumFrom k l).filter (fun p => !(p.1 % 2 == 0)))[j]?
        = if k % 2 = 0 then (l[2 * j + 1]?).map (fun a => (k + 1 + 2 * j, a))
          else (l[2 * j]?).map (fun a => (k + 2 * j, a))) := by
  induction l with
  | nil =>
    intro k j
    constructor <;> (split <;> simp [List.enumFrom])
  | cons a t ih =>
    intro k j
    have hcons : List.enumFrom k (a :: t) = (k, a) :: List.enumFrom (k + 1) t := rfl
    by_cases hk : k % 2 = 0
    · have hk1 : ¬ ((k + 1) % 2 = 0) := by omega
      have hb : (((k, a) : Nat × α).1 % 2 == 0) = true := by simpa using hk
      have hbn : ¬ ((!(((k, a) : Nat × α).1 % 2 == 0)) = true) := by simp [hb]
      constructor
      · rw [hcons, List.filter_cons, if_pos hb, if_pos hk]
        cases j with
        | zero => simp
        | succ j' =>
          rw [List.getElem?_cons_succ, (ih (k + 1) j').1, if_neg hk1,
            show 2 * (j' + 1) = 2 * j' + 1 + 1 from by ring,
            List.getElem?_cons_succ]
          congr 1
          funext z
          congr 1
          omega
      · rw [hcons, List.filter_cons, if_neg hbn, (ih (k + 1) j).2, if_neg hk1,
          if_pos hk, List.getElem?_cons_succ]
    · have hk1 : (k + 1) % 2 = 0 := by omega
      have hb : ¬ ((((k, a) : Nat × α).1 % 2 == 0) = true) := by simpa using hk
      have hbn : ((!(((k, a) : Nat × α).1 % 2 == 0)) = true) := by
        simp
        simpa using hk
      constructor
      · rw [hcons, List.filter_cons, if_neg hb, (ih (k + 1) j).1, if_pos hk1,
          if_neg hk, List.getElem?_cons_succ]
      · rw [hcons, List.filter_cons, if_pos hbn, if_neg hk]
        cases j with
        | zero => simp
        | succ j' =>
          rw [List.getElem?_cons_succ, (ih (k + 1) j').2, if_pos hk1,
            show 2 * (j' + 1) = 2 * j' + 1 + 1 from by ring,
            List.getElem?_cons_succ]
          congr 1
          funext z
          congr 1
          omega

lemma leftLabels_getElem (registry : List (String × String))
    (ds : List LangDatum) (j : Nat) :
    (leftLabels registry ds)[j]?
      = (ds[2 * j]?).map (fun d => labelMarkup registry (2 * j) d) := by
  unfold leftLabels
  rw [List.getElem?_map, show ds.enum = List.enumFrom 0 ds from rfl,
    (enumFrom_filter_parity_getElem ds 0 j).1, if_pos (by norm_num)]
  simp only [Option.map_map, Nat.zero_add]
  rfl

lemma rightLabels_getElem (registry : List (String × String))
    (ds : List LangDatum) (j : Nat) :
    (rightLabels registry ds)[j]?
      = (ds[2 * j + 1]?).map (fun d => labelMarkup registry (2 * j + 1) d) := by
  unfold rightLabels
  rw [List.getElem?_map, show ds.enum = List.enumFrom 0 ds from rfl,
    (enumFrom_filter_parity_getElem ds 0 j).2, if_pos (by norm_num)]
  simp only [Option.map_map, show (0 : Nat) + 1 + 2 * j = 2 * j + 1 from by omega]
  rfl

lemma columnRows_getElem (labels : List String) (j : Nat) :
    (columnRows labels)[j]? = (labels[j]?).map (fun s => rowMarkup j s) := by
  unfold columnRows
  rw [List.getElem?_map, List.getElem?_enum]
  simp only [Option.map_map]
  rfl

/-! ### C8 -/

/-- C8: the ranked entry at even 0-based global index i lands in the left
column and at odd i in the right column, at per-column position i / 2 (hence
at vertical offset (i / 2) * 25 inside `rowMarkup`), preserving rank order
within each column; the label carries the global-index stagger delay. -/
theorem label_column_layout (registry : List (String × String))
    (cloc : ClocData) (i : Nat) (hi : i < (rankedData cloc).length) :
    (i % 2 = 0 →
      (columnRows (leftLabels registry (rankedData cloc)))[i / 2]?
        = some (rowMarkup (i / 2)
            (labelMarkup registry i ((rankedData cloc).get ⟨i, hi⟩))))
    ∧ (i % 2 = 1 →
      (columnRows (rightLabels registry (rankedData cloc)))[i / 2]?
        = some (rowMarkup (i / 2)
            (labelMarkup registry i ((rankedData cloc).get ⟨i, hi⟩)))) := by
  constructor
  · intro he
    rw [columnRows_getElem, leftLabels_getElem,
      show 2 * (i / 2) = i from by omega, List.getElem?_eq_getElem hi]
    simp [List.get_eq_getElem]
  · intro ho
    rw [columnRows_getElem, rightLabels_getElem,
      show 2 * (i / 2) + 1 = i from by omega, List.getElem?_eq_getElem hi]
    simp [List.get_eq_getElem]

/-- C8 witness: at the Go/TS input, rank 0 (even) appears at left-column
position 0 and rank 1 (odd) at right-column position 0. -/
theorem label_column_layout_witness :
    (0 < (rankedData exGoTS).length ∧ 1 < (rankedData exGoTS).length)
    ∧ (0 % 2 = 0 →
      (columnRows (leftLabels regEx (rankedData exGoTS)))[0 / 2]?
        = some (rowMarkup (0 / 2)
            (labelMarkup regEx 0 ((rankedData exGoTS).get ⟨0, by decide⟩))))
    ∧ (1 % 2 = 1 →
      (columnRows (rightLabels regEx (rankedData exGoTS)))[1 / 2]?
        = some (rowMarkup (1 / 2)
            (labelMarkup regEx 1 ((rankedData exGoTS).get ⟨1, by decide⟩)))) :=
  ⟨⟨by decide, by decide⟩,
   (label_column_layout regEx exGoTS 0 (by decide)).1,
   (label_column_layout regEx exGoTS 1 (by decide)).2⟩

/-! ### C2 -/

/-- The language stats used by the tie-break inputs: one total line each. -/
def stC2 : LanguageStats := ⟨1, 1, 0, 0⟩

/-- Two languages with equal line counts, iteration order A then Bbb. -/
def exA : ClocData := ⟨[("A", stC2), ("Bbb", stC2)]⟩

/-- The same mapping content, iteration order Bbb then A. -/
def exB : ClocData := ⟨[("Bbb", stC2), ("A", stC2)]⟩

lemma fmt2_pct_half (nm : String) :
    fmt2 ((langDatum 2 (nm, stC2)).pct) = "50.00" := by
  have h1 : (langDatum 2 (nm, stC2)).pct = 50 := by
    simp [langDatum, stC2, LanguageStats.total_lines]
    norm_num
  rw [h1]
  have h2 : round ((50 : ℚ) * 100) = 5000 := by norm_num [round_eq]
  unfold fmt2
  rw [h2]
  decide

set_option maxRecDepth 8192 in
/-- C2, counterexample: the two inputs hold the same language-to-stats
mapping (they are permutations of each other, i.e. the same `HashMap`
content under different iteration orders), yet the produced template data
differ: the stable sort breaks the tie between the equal-line languages by
iteration order, so the left column starts with "A" in one run and with
"Bbb" in the other. -/
theorem order_dependence_counterexample :
    exA.languages.Perm exB.languages
    ∧ cloc_to_svg_template_data [] exA ≠ cloc_to_svg_template_data [] exB := by
  constructor
  · exact List.Perm.swap ("Bbb", stC2) ("A", stC2) []
  · intro h
    have hl := congrArg SvgTemplateData.left_block h
    have eA : (cloc_to_svg_template_data [] exA).left_block
        = rowMarkup 0 (labelMarkup [] 0 (langDatum 2 ("A", stC2))) := rfl
    have eB : (cloc_to_svg_template_data [] exB).left_block
        = rowMarkup 0 (labelMarkup [] 0 (langDatum 2 ("Bbb", stC2))) := rfl
    rw [eA, eB] at hl
    simp only [rowMarkup, labelMarkup] at hl
    rw [fmt2_pct_half "A", fmt2_pct_half "Bbb"] at hl
    exact absurd hl (by decide)

/-- C2, amended: the pipeline is a pure function of the input (two runs on
the same iteration sequence agree byte for byte), but the tie-break among
equal-line languages is the input iteration order (the sort is stable), not
a content-determined rule: with two equal-line languages the ranked order is
exactly the input order, so the output does depend on mapping iteration
order. -/
theorem tie_break_is_input_order (n1 n2 : String) (s1 s2 : LanguageStats)
    (h : s1.total_lines = s2.total_lines) :
    (rankedData ⟨[(n1, s1), (n2, s2)]⟩).map LangDatum.name = [n1, n2] := by
  simp [rankedData, langData, List.insertionSort, List.orderedInsert, ledesc,
    langDatum, h]

/-- C2 witness: a concrete equal-line two-language input is ranked in input
order. -/
theorem tie_break_is_input_order_witness :
    (⟨1, 1, 0, 0⟩ : LanguageStats).total_lines
        = (⟨2, 0, 0, 1⟩ : LanguageStats).total_lines
    ∧ (rankedData ⟨[("Aa", ⟨1, 1, 0, 0⟩), ("Bb", ⟨2, 0, 0, 1⟩)]⟩).map
        LangDatum.name = ["Aa", "Bb"] :=
  ⟨by decide, tie_break_is_input_order "Aa" "Bb" ⟨1, 1, 0, 0⟩ ⟨2, 0, 0, 1⟩ (by decide)⟩
